import Mathlib

/-!
Verification development for the bwlat latency measurement engine
(src/network/latency.rs, src/client.rs, src/components/latency.rs).

Durations are modelled as nanosecond counts (Nat). The f64 cumulative
average of update_statistics is idealised as exact rational arithmetic;
no theorem below depends on floating point rounding of finite values.
Rust panics are modelled as the Option value none (for a single step) or
as the LoopResult.panicked outcome (for a loop).
-/

namespace Bwlat

/-- latency.rs lines 174-181: per-probe ledger record. -/
inductive PacketStatus where
  | sent (start : Nat)
  | received (start stop latency : Nat)
deriving DecidableEq

/-- latency.rs lines 183-194: the shared mutable state. u32 counters are
modelled as Nat (no reachable state below overflows or underflows them;
the proven invariant shows packet_loss is positive at every match). -/
structure State where
  packets : List PacketStatus
  received_packets : Nat
  packet_loss : Nat
  min_latency : Nat
  max_latency : Nat
  average_latency : ℚ
  should_stop : Bool
deriving DecidableEq

/-- latency.rs lines 196-208: State::new. Vec::with_capacity only reserves
memory, so the ledger starts empty; every numeric field starts at zero. -/
def State.new (_count : Nat) : State :=
  { packets := []
    received_packets := 0
    packet_loss := 0
    min_latency := 0
    max_latency := 0
    average_latency := 0
    should_stop := false }

/-- The run configuration relevant to the claims: target probe count
(count, u32 in the source, 0 = unbounded) and payload size in bytes. -/
structure Config where
  count : Nat
  packet_size : Nat
deriving DecidableEq

/-- Width in bytes of the encoded sequence number: usize/u64 on the
64-bit targets the source addresses (usize::to_ne_bytes on the sender,
u64::from_ne_bytes on the receiver, latency.rs lines 111 and 144). -/
def USIZE_WIDTH : Nat := 8

/-- Fixed-width byte encoding of a sequence number, least significant
byte first (both sides use native endianness of the same machine, so one
consistent byte order suffices for the model). -/
def toNeBytesAux : Nat → Nat → List Nat
  | 0, _ => []
  | w + 1, k => k % 256 :: toNeBytesAux w (k / 256)

/-- latency.rs line 111: counter.to_ne_bytes(). -/
def toNeBytes (k : Nat) : List Nat := toNeBytesAux USIZE_WIDTH k

def fromNeBytesAux : List Nat → Nat
  | [] => 0
  | b :: bs => b + 256 * fromNeBytesAux bs

/-- latency.rs line 144: u64::from_ne_bytes over the first 8 buffer bytes. -/
def fromNeBytes (bs : List Nat) : Nat := fromNeBytesAux (bs.take USIZE_WIDTH)

/-- latency.rs line 112: buf[..counter_bytes.len()].copy_from_slice(..).
copy_from_slice requires equal slice lengths; when the buffer is shorter
than the 8-byte counter the slicing itself already fails, a Rust panic,
modelled as none. On success the leading 8 bytes become the encoded
counter and the rest of the buffer is unchanged. -/
def writeCounter (buf : List Nat) (counter : Nat) : Option (List Nat) :=
  if USIZE_WIDTH ≤ buf.length then
    some (toNeBytes counter ++ buf.drop USIZE_WIDTH)
  else
    none

/-- latency.rs lines 210-230: update_statistics. The two in-place min/max
branches (lines 216-226) are written as one pair so the field updates
compose; the f64 cumulative mean of line 214 is idealised over ℚ.
Line 229 is u32 subtraction; at every reachable call site packet_loss is
positive (proved below), so Nat subtraction is exact. -/
def update_statistics (s : State) (latency : Nat) : State :=
  let n : ℚ := (s.received_packets : ℚ)
  let avg := s.average_latency * (n / (n + 1)) + (latency : ℚ) / (n + 1)
  let minmax : Nat × Nat :=
    if s.received_packets = 0 then
      (latency, latency)
    else
      (if latency < s.min_latency then latency else s.min_latency,
       if s.max_latency < latency then latency else s.max_latency)
  { s with
    average_latency := avg
    min_latency := minmax.1
    max_latency := minmax.2
    received_packets := s.received_packets + 1
    packet_loss := s.packet_loss - 1 }

/-- latency.rs lines 142-161: the body run for one inbound datagram, after
the sequence number n has been decoded. Indexing state.packets[n] out of
range is a Rust panic, and the match arm for an already Received slot is
an explicit panic (line 149); both are modelled as none. Otherwise the
slot transitions to Received and the statistics are updated. -/
def receiveOne (s : State) (n : Nat) (stop : Nat) : Option State :=
  match s.packets.get? n with
  | some (PacketStatus.sent start) =>
    let latency := stop - start
    let s1 : State :=
      { s with packets := s.packets.set n (PacketStatus.received start stop latency) }
    some (update_statistics s1 latency)
  | _ => none

/-- The observable events of one sender loop iteration, in statement
order of latency.rs lines 105-126. -/
inductive SendEvent where
  | tick
  | encodeSeq (k : Nat)
  | transmit (k : Nat)
  | appendSent (k : Nat)
  | incrementLoss
  | notifySent (k : Nat)
  | stopCheck (stop : Bool)
deriving DecidableEq

/-- latency.rs lines 116-117: push the Sent record, then increment
packet_loss (the optimistic outstanding counter). -/
def sendAdvance (s : State) (now : Nat) : State :=
  { s with
    packets := s.packets ++ [PacketStatus.sent now]
    packet_loss := s.packet_loss + 1 }

/-- latency.rs line 123: the end-of-iteration stop condition, evaluated
with counter already incremented (line 119). -/
def stopDecision (cfg : Config) (cancelled : Bool) (counter : Nat) : Bool :=
  cancelled || (decide (0 < cfg.count) && decide (cfg.count ≤ counter))

/-- latency.rs lines 105-126: one iteration of send_packets, as the event
trace in statement order plus the resulting state and break flag.
cancelled is the value quit.is_cancelled() returns at line 123 and now is
the timestamp captured at line 114. The buffer is vec of packet_size zero
bytes (line 100); only its length matters here. If the counter copy
fails (packet size below 8) the iteration stops at the copy, before any
transmission: the trace holds only the tick and the result is none. -/
def sendIter (cfg : Config) (cancelled : Bool) (now : Nat) (s : State) :
    List SendEvent × Option (State × Bool) :=
  let counter := s.packets.length
  match writeCounter (List.replicate cfg.packet_size 0) counter with
  | none => ([SendEvent.tick], none)
  | some _ =>
    let s2 := sendAdvance s now
    let brk := stopDecision cfg cancelled (counter + 1)
    ([SendEvent.tick, SendEvent.encodeSeq counter, SendEvent.transmit counter,
      SendEvent.appendSent counter, SendEvent.incrementLoss,
      SendEvent.notifySent (counter + 1), SendEvent.stopCheck brk],
     some (if brk then { s2 with should_stop := true } else s2, brk))

/-- Outcome of running the sender loop, with the number of completed
transmissions. configError is the outcome the specification demands for
an undersized packet configuration; no path of the source produces it,
because Latency::run (latency.rs lines 78-92) performs no packet size
validation before starting the loops. -/
inductive LoopResult where
  | configError
  | panicked (sends : Nat) (s : State)
  | fuelOut (sends : Nat) (s : State)
  | completed (sends : Nat) (s : State)
deriving DecidableEq

/-- latency.rs lines 105-127: the send_packets loop. quit i and times i
give the cancellation flag and timestamp observed by iteration i; fuel
bounds the number of iterations modelled (fuelOut = still looping). -/
def sendLoop (cfg : Config) (quit : Nat → Bool) (times : Nat → Nat) :
    Nat → Nat → Nat → State → LoopResult
  | 0, _, sends, s => LoopResult.fuelOut sends s
  | fuel + 1, i, sends, s =>
    match (sendIter cfg (quit i) (times i) s).2 with
    | none => LoopResult.panicked sends s
    | some (s1, true) => LoopResult.completed (sends + 1) s1
    | some (s1, false) => sendLoop cfg quit times fuel (i + 1) (sends + 1) s1

/-- latency.rs lines 78-92: the path of Latency::run into the sender
loop. run binds the socket, emits the total notification and starts the
worker loops on a fresh State; it contains no packet size check, so it
reaches the loop for every configuration. The receiver loop never
appends to the ledger, so the sender side behaviour modelled here is
independent of it. -/
def run (cfg : Config) (quit : Nat → Bool) (times : Nat → Nat) (fuel : Nat) :
    LoopResult :=
  sendLoop cfg quit times fuel 0 0 (State.new cfg.count)

/-- An f32 value as relevant to the loss percentage computation: finite
values idealised as exact rationals, plus the IEEE 754 non-finite
results of a zero divisor. -/
inductive F32 where
  | finite (q : ℚ)
  | nan
  | infinite
deriving DecidableEq

/-- IEEE 754 division restricted to the cases that arise: a zero divisor
yields NaN for a zero dividend and an infinity otherwise; finite results
are idealised as exact. -/
def f32Div (a b : ℚ) : F32 :=
  if b = 0 then (if a = 0 then F32.nan else F32.infinite) else F32.finite (a / b)

def F32.mulConst (x : F32) (c : ℚ) : F32 :=
  match x with
  | F32.finite q => F32.finite (q * c)
  | F32.nan => F32.nan
  | F32.infinite => F32.infinite

/-- client.rs line 121: state.packet_loss as f32 / state.packets.len()
as f32 * 100.0 — the final loss percentage report. The division is not
guarded by any zero check in the source. -/
def clientLossPercent (s : State) : F32 :=
  (f32Div (s.packet_loss : ℚ) (s.packets.length : ℚ)).mulConst 100

def isReceivedSlot : PacketStatus → Bool
  | PacketStatus.received _ _ _ => true
  | _ => false

/-- Number of ledger slots already in the Received state. -/
def countReceived (l : List PacketStatus) : Nat := l.countP isReceivedSlot

/-- One shared-state operation of the run: a complete sender iteration
(latency.rs lines 105-126) or a complete successful receiver match
(latency.rs lines 142-161). -/
inductive Step (cfg : Config) : State → State → Prop where
  | send (cancelled : Bool) (now : Nat) (s s1 : State) (brk : Bool) :
      (sendIter cfg cancelled now s).2 = some (s1, brk) → Step cfg s s1
  | recv (n stop : Nat) (s s1 : State) :
      receiveOne s n stop = some s1 → Step cfg s s1

/-- States reachable from State.new by complete send and match
operations. -/
def Reachable (cfg : Config) (count : Nat) (s : State) : Prop :=
  Relation.ReflTransGen (Step cfg) (State.new count) s

/-- The run invariant: loss plus received equals the ledger length,
received_packets counts the Received slots, and the latency aggregates
are all zero until the first echo is matched. -/
def Inv (s : State) : Prop :=
  s.packet_loss + s.received_packets = s.packets.length ∧
  s.received_packets = countReceived s.packets ∧
  (s.received_packets = 0 →
    s.min_latency = 0 ∧ s.max_latency = 0 ∧ s.average_latency = 0)

lemma length_toNeBytesAux (w : Nat) : ∀ k, (toNeBytesAux w k).length = w := by
  induction w with
  | zero => intro k; rfl
  | succ w ih => intro k; simp [toNeBytesAux, ih]

lemma fromNeBytesAux_toNeBytesAux (w : Nat) :
    ∀ k, fromNeBytesAux (toNeBytesAux w k) = k % 256 ^ w := by
  induction w with
  | zero => intro k; simp [toNeBytesAux, fromNeBytesAux, Nat.mod_one]
  | succ w ih =>
    intro k
    rw [pow_succ', Nat.mod_mul]
    simp [toNeBytesAux, fromNeBytesAux, ih]

lemma writeCounter_replicate (ps c : Nat) (h : USIZE_WIDTH ≤ ps) :
    writeCounter (List.replicate ps 0) c =
      some (toNeBytes c ++ (List.replicate ps 0).drop USIZE_WIDTH) := by
  simp [writeCounter, h]

lemma sendIter_snd (cfg : Config) (h : USIZE_WIDTH ≤ cfg.packet_size)
    (cancelled : Bool) (now : Nat) (s : State) :
    (sendIter cfg cancelled now s).2 =
      some (if stopDecision cfg cancelled (s.packets.length + 1) then
              { sendAdvance s now with should_stop := true }
            else sendAdvance s now,
            stopDecision cfg cancelled (s.packets.length + 1)) := by
  rw [sendIter, writeCounter_replicate _ _ h]

/-- C6: writing sequence number k with the fixed-width native-endian
encoding into the leading bytes of the payload buffer and decoding the
leading bytes of that payload with the Receiver decode yields k again,
for every k below 2^64. -/
theorem seq_number_roundtrip (k : Nat) (buf buf1 : List Nat) (hk : k < 2 ^ 64)
    (h : writeCounter buf k = some buf1) : fromNeBytes buf1 = k := by
  rw [writeCounter] at h
  split at h
  · cases h
    rw [fromNeBytes, toNeBytes,
      List.take_left' (length_toNeBytesAux USIZE_WIDTH k),
      fromNeBytesAux_toNeBytesAux]
    exact Nat.mod_eq_of_lt (by norm_num at hk ⊢; exact hk)
  · cases h

/-- Witness for C6 at k = 3 with a 64-byte buffer. -/
theorem seq_number_roundtrip_witness :
    3 < 2 ^ 64 ∧
      fromNeBytes (toNeBytes 3 ++ (List.replicate 64 0).drop USIZE_WIDTH) = 3 :=
  ⟨by norm_num,
    seq_number_roundtrip 3 (List.replicate 64 0) _ (by norm_num) rfl⟩

/-- C1 fails on the code: an echo whose decoded sequence number is out of
range of the ledger, or whose ledger slot is already Received, makes the
receiver panic (modelled as none) instead of discarding the datagram and
continuing. Shown at a fresh empty-ledger state for an out-of-range
sequence number 0, and at a one-slot ledger whose slot 0 is already
Received for a replayed sequence number 0. -/
theorem receive_anomaly_panics :
    receiveOne (State.new 0) 0 3 = none ∧
      receiveOne { State.new 1 with packets := [PacketStatus.received 1 2 1] }
        0 9 = none :=
  ⟨rfl, rfl⟩

/-- C2 fails on the code: within one sender iteration the transmit event
(socket.send_to, line 115) happens strictly before the ledger append
(packets.push, line 116), with no append before the transmit — the
opposite of the claimed append-then-send order. Shown at the first probe
(sequence number 0) of a fresh run. -/
theorem transmit_precedes_ledger_append :
    ∃ pre post,
      (sendIter ⟨3, 64⟩ false 0 (State.new 3)).1 =
        pre ++ SendEvent.transmit 0 :: SendEvent.appendSent 0 :: post ∧
      SendEvent.appendSent 0 ∉ pre := by
  refine ⟨[SendEvent.tick, SendEvent.encodeSeq 0],
    [SendEvent.incrementLoss, SendEvent.notifySent 1, SendEvent.stopCheck false],
    ?_, ?_⟩ <;> decide

/-- C9 fails on the code: at a state where no packets have been sent
(empty ledger) the reported loss percentage is the f32 result of the
unguarded division 0.0/0.0, that is NaN — not 0 percent and not an
explicit guarded undefined value. -/
theorem empty_run_loss_report_is_nan :
    clientLossPercent (State.new 0) = F32.nan ∧ F32.nan ≠ F32.finite 0 :=
  ⟨rfl, by decide⟩

lemma length_sendAdvance (s : State) (now : Nat) :
    (sendAdvance s now).packets.length = s.packets.length + 1 := by
  simp [sendAdvance]

lemma sendLoop_no_cancel (cfg : Config) (times : Nat → Nat)
    (hps : USIZE_WIDTH ≤ cfg.packet_size) :
    ∀ m, 0 < m → ∀ fuel i sends s, m ≤ fuel →
      s.packets.length + m = cfg.count →
      ∃ s1, sendLoop cfg (fun _ => false) times fuel i sends s =
          LoopResult.completed (sends + m) s1 ∧
        s1.packets.length = cfg.count ∧ s1.should_stop = true := by
  intro m
  induction m with
  | zero => omega
  | succ m ih =>
    intro _ fuel i sends s hfuel hlen
    obtain ⟨f, rfl⟩ : ∃ f, fuel = f + 1 := ⟨fuel - 1, by omega⟩
    have hstop : stopDecision cfg false (s.packets.length + 1) =
        decide (cfg.count ≤ s.packets.length + 1) := by
      simp [stopDecision]
      omega
    cases m with
    | zero =>
      refine ⟨{ sendAdvance s (times i) with should_stop := true }, ?_, ?_, rfl⟩
      · rw [sendLoop, sendIter_snd cfg hps, hstop]
        have : cfg.count ≤ s.packets.length + 1 := by omega
        simp [this]
      · simp [length_sendAdvance]
        omega
    | succ m =>
      have hlt : ¬ cfg.count ≤ s.packets.length + 1 := by omega
      obtain ⟨s1, h1, h2, h3⟩ :=
        ih (by omega) f (i + 1) (sends + 1) (sendAdvance s (times i))
          (by omega) (by rw [length_sendAdvance]; omega)
      refine ⟨s1, ?_, h2, h3⟩
      rw [sendLoop, sendIter_snd cfg hps, hstop]
      simp only [hlt, decide_False]
      show sendLoop cfg (fun _ => false) times f (i + 1) (sends + 1)
          (sendAdvance s (times i)) =
        LoopResult.completed (sends + (m + 1 + 1)) s1
      rw [h1]
      congr 1
      omega

/-- C3: for a run with target count N greater than zero during which
cancellation is never requested (the quit flag reads false at every
iteration), the sender loop performs exactly N sends, appending exactly
N ledger records, then sets should_stop to true and exits. Stated for
any payload size at least the 8-byte counter width and any fuel bound of
at least N iterations. -/
theorem sender_sends_exactly_count (cfg : Config) (times : Nat → Nat)
    (fuel : Nat) (hps : USIZE_WIDTH ≤ cfg.packet_size) (hc : 0 < cfg.count)
    (hfuel : cfg.count ≤ fuel) :
    ∃ s1, run cfg (fun _ => false) times fuel =
        LoopResult.completed cfg.count s1 ∧
      s1.packets.length = cfg.count ∧ s1.should_stop = true := by
  obtain ⟨s1, h1, h2, h3⟩ :=
    sendLoop_no_cancel cfg times hps cfg.count hc fuel 0 0
      (State.new cfg.count) hfuel (by simp [State.new])
  exact ⟨s1, by simpa [run] using h1, h2, h3⟩

/-- Witness for C3 with count 2, packet size 64 and fuel 2. -/
theorem sender_sends_exactly_count_witness :
    USIZE_WIDTH ≤ 64 ∧ 0 < 2 ∧ 2 ≤ 2 ∧
      ∃ s1, run ⟨2, 64⟩ (fun _ => false) (fun _ => 0) 2 =
          LoopResult.completed 2 s1 ∧
        s1.packets.length = 2 ∧ s1.should_stop = true :=
  ⟨by decide, by decide, by decide,
    sender_sends_exactly_count ⟨2, 64⟩ (fun _ => 0) 2 (by decide) (by decide)
      (by decide)⟩

/-- C7 fails on the code: with packet size 4 (smaller than the 8-byte
encoded sequence number width) the run is not rejected as a
configuration error before the sender loop starts; instead the loop is
entered and its first iteration panics at the buffer copy, after zero
transmissions. -/
theorem small_packet_size_not_prevalidated :
    run ⟨3, 4⟩ (fun _ => false) (fun _ => 0) 9 =
        LoopResult.panicked 0 (State.new 3) ∧
      run ⟨3, 4⟩ (fun _ => false) (fun _ => 0) 9 ≠ LoopResult.configError := by
  constructor <;> decide

/-- C7 amended: a packet size smaller than the 8-byte encoded sequence
number width is not validated up front; for every such configuration the
sender loop is entered and its first iteration panics at the counter
buffer copy, before any datagram is transmitted (zero sends). -/
theorem small_packet_size_first_iteration_panic (cfg : Config)
    (quit : Nat → Bool) (times : Nat → Nat) (fuel : Nat)
    (hps : cfg.packet_size < USIZE_WIDTH) (hf : 0 < fuel) :
    run cfg quit times fuel = LoopResult.panicked 0 (State.new cfg.count) := by
  obtain ⟨f, rfl⟩ : ∃ f, fuel = f + 1 := ⟨fuel - 1, by omega⟩
  rw [run, sendLoop, sendIter]
  have : ¬ USIZE_WIDTH ≤ (List.replicate cfg.packet_size (0 : Nat)).length := by
    simpa using by omega
  rw [writeCounter, if_neg this]

/-- Witness for the amended C7 at packet size 4, count 5, fuel 9. -/
theorem small_packet_size_first_iteration_panic_witness :
    4 < USIZE_WIDTH ∧ 0 < 9 ∧
      run ⟨5, 4⟩ (fun _ => true) (fun _ => 2) 9 =
        LoopResult.panicked 0 (State.new 5) :=
  ⟨by decide, by decide,
    small_packet_size_first_iteration_panic ⟨5, 4⟩ (fun _ => true)
      (fun _ => 2) 9 (by decide) (by decide)⟩

/-- C8 fails on the code: an iteration of the sender that begins with
cancellation already fired still waits for the interval tick and
transmits one more datagram (the trace holds the tick and a transmit)
before the end-of-iteration check sets should_stop. Shown on an
unbounded run (count 0) at sequence number 0. -/
theorem cancelled_sender_still_sends :
    ((sendIter ⟨0, 64⟩ true 7 (State.new 0)).1).contains SendEvent.tick = true ∧
      ((sendIter ⟨0, 64⟩ true 7 (State.new 0)).1).contains
        (SendEvent.transmit 0) = true ∧
      (sendIter ⟨0, 64⟩ true 7 (State.new 0)).2 =
        some ({ State.new 0 with
                  packets := [PacketStatus.sent 7]
                  packet_loss := 1
                  should_stop := true }, true) := by
  refine ⟨?_, ?_, ?_⟩ <;> decide

/-- C8 amended: when cancellation has fired by the time iteration i of
the sender loop runs, that iteration still completes its tick and one
more full send, and only then observes the cancellation at the
end-of-iteration check: the loop exits immediately after with exactly
one additional send, should_stop set, and no further tick. -/
theorem cancellation_observed_after_one_more_send (cfg : Config)
    (quit : Nat → Bool) (times : Nat → Nat) (fuel i sends : Nat) (s : State)
    (hps : USIZE_WIDTH ≤ cfg.packet_size) (hq : quit i = true) :
    sendLoop cfg quit times (fuel + 1) i sends s =
      LoopResult.completed (sends + 1)
        { sendAdvance s (times i) with should_stop := true } ∧
      (sendAdvance s (times i)).packets.length = s.packets.length + 1 := by
  constructor
  · rw [sendLoop, hq, sendIter_snd cfg hps]
    simp [stopDecision]
  · exact length_sendAdvance s (times i)

/-- Witness for the amended C8 on an unbounded run with cancellation
fired at iteration 0. -/
theorem cancellation_observed_after_one_more_send_witness :
    USIZE_WIDTH ≤ 64 ∧ (fun _ : Nat => true) 0 = true ∧
      (sendLoop ⟨0, 64⟩ (fun _ => true) (fun _ => 5) 3 0 0 (State.new 0) =
          LoopResult.completed 1
            { sendAdvance (State.new 0) 5 with should_stop := true } ∧
        (sendAdvance (State.new 0) 5).packets.length =
          (State.new 0).packets.length + 1) :=
  ⟨by decide, rfl,
    cancellation_observed_after_one_more_send ⟨0, 64⟩ (fun _ => true)
      (fun _ => 5) 2 0 0 (State.new 0) (by decide) rfl⟩

lemma countReceived_append_sent (l : List PacketStatus) (t : Nat) :
    countReceived (l ++ [PacketStatus.sent t]) = countReceived l := by
  simp [countReceived, List.countP_append, List.countP_cons, isReceivedSlot]

lemma countReceived_lt_of_sent (l : List PacketStatus) :
    ∀ n a, l.get? n = some (PacketStatus.sent a) →
      countReceived l < l.length := by
  induction l with
  | nil => intro n a h; cases h
  | cons hd tl ih =>
    intro n a h
    cases n with
    | zero =>
      cases h
      have hle : countReceived tl ≤ tl.length :=
        List.countP_le_length isReceivedSlot
      have hhd : countReceived (PacketStatus.sent a :: tl) = countReceived tl := by
        simp [countReceived, List.countP_cons, isReceivedSlot]
      simp only [hhd, List.length_cons]
      omega
    | succ n =>
      have htl := ih n a (by simpa using h)
      have hone : (if isReceivedSlot hd then 1 else 0) ≤ 1 := by
        split <;> omega
      simp only [countReceived, List.countP_cons, List.length_cons] at htl ⊢
      omega

lemma countReceived_set_received (l : List PacketStatus) :
    ∀ n a x y z, l.get? n = some (PacketStatus.sent a) →
      countReceived (l.set n (PacketStatus.received x y z)) =
        countReceived l + 1 := by
  induction l with
  | nil => intro n a x y z h; cases h
  | cons hd tl ih =>
    intro n a x y z h
    cases n with
    | zero =>
      cases h
      simp [countReceived, List.set, List.countP_cons, isReceivedSlot]
    | succ n =>
      have := ih n a x y z (by simpa using h)
      simp only [countReceived, List.set, List.countP_cons] at this ⊢
      omega

lemma inv_new (c : Nat) : Inv (State.new c) := by
  refine ⟨rfl, rfl, fun _ => ⟨rfl, rfl, rfl⟩⟩

lemma inv_send (cfg : Config) {cancelled : Bool} {now : Nat} {s s1 : State}
    {brk : Bool} (h : (sendIter cfg cancelled now s).2 = some (s1, brk))
    (hinv : Inv s) : Inv s1 := by
  rw [sendIter] at h
  rcases hw : writeCounter (List.replicate cfg.packet_size 0) s.packets.length
    with _ | b
  · rw [hw] at h; cases h
  · rw [hw] at h
    simp only [Option.some.injEq, Prod.mk.injEq] at h
    obtain ⟨rfl, rfl⟩ := h
    obtain ⟨h1, h2, h3⟩ := hinv
    have hlen : (sendAdvance s now).packets.length = s.packets.length + 1 :=
      length_sendAdvance s now
    have hcount :
        countReceived (sendAdvance s now).packets = countReceived s.packets :=
      countReceived_append_sent s.packets now
    split
    · exact ⟨by simp [sendAdvance, countReceived_append_sent]; omega,
        by simpa [sendAdvance] using h2.trans hcount.symm,
        fun h0 => h3 (by simpa [sendAdvance] using h0)⟩
    · exact ⟨by simp [sendAdvance, countReceived_append_sent]; omega,
        by simpa [sendAdvance] using h2.trans hcount.symm,
        fun h0 => h3 (by simpa [sendAdvance] using h0)⟩

lemma inv_recv {n stop : Nat} {s s1 : State}
    (h : receiveOne s n stop = some s1) (hinv : Inv s) : Inv s1 := by
  rw [receiveOne] at h
  cases hg : s.packets.get? n with
  | none => rw [hg] at h; cases h
  | some p =>
    rw [hg] at h
    cases p with
    | received a b c => cases h
    | sent a =>
      simp only [Option.some.injEq] at h
      subst h
      obtain ⟨h1, h2, h3⟩ := hinv
      have hlt : countReceived s.packets < s.packets.length :=
        countReceived_lt_of_sent s.packets n a hg
      have hloss : 0 < s.packet_loss := by omega
      have hset := countReceived_set_received s.packets n a a stop
        (stop - a) hg
      refine ⟨?_, ?_, ?_⟩
      · simp only [update_statistics, List.length_set]
        omega
      · simp only [update_statistics, hset]
        omega
      · intro h0
        simp only [update_statistics] at h0
        omega

lemma inv_reachable (cfg : Config) (c : Nat) (s : State)
    (h : Reachable cfg c s) : Inv s := by
  induction h with
  | refl => exact inv_new c
  | tail _ hstep ih =>
    cases hstep with
    | send cancelled now s s1 brk hs => exact inv_send cfg hs ih
    | recv n stop s s1 hr => exact inv_recv hr ih

/-- C4: at every state reachable by complete send and match operations
from the initial state, packet_loss plus received_packets equals the
ledger length — each send increments the outstanding counter together
with the ledger append, each successful match trades one outstanding
for one received. -/
theorem loss_plus_received_eq_ledger_length (cfg : Config) (c : Nat)
    (s : State) (h : Reachable cfg c s) :
    s.packet_loss + s.received_packets = s.packets.length :=
  (inv_reachable cfg c s h).1

/-- Witness for C4 at a state reached by one complete send operation. -/
theorem loss_plus_received_eq_ledger_length_witness :
    (sendAdvance (State.new 4) 2).packet_loss +
        (sendAdvance (State.new 4) 2).received_packets =
      (sendAdvance (State.new 4) 2).packets.length :=
  loss_plus_received_eq_ledger_length ⟨4, 64⟩ 4 (sendAdvance (State.new 4) 2)
    (Relation.ReflTransGen.tail Relation.ReflTransGen.refl
      (Step.send false 2 (State.new 4) (sendAdvance (State.new 4) 2) false
        (by decide)))

/-- C10: at every reachable state where no echo has been matched yet
(received_packets is zero), min_latency, max_latency and average_latency
all equal exactly zero — in particular a run that matches no echoes ends
with min, average and max all reported as zero. -/
theorem latency_stats_zero_before_first_echo (cfg : Config) (c : Nat)
    (s : State) (h : Reachable cfg c s) (h0 : s.received_packets = 0) :
    s.min_latency = 0 ∧ s.max_latency = 0 ∧ s.average_latency = 0 :=
  (inv_reachable cfg c s h).2.2 h0

/-- Witness for C10 at the freshly created state of a run with count 7. -/
theorem latency_stats_zero_before_first_echo_witness :
    (State.new 7).min_latency = 0 ∧ (State.new 7).max_latency = 0 ∧
      (State.new 7).average_latency = 0 :=
  latency_stats_zero_before_first_echo ⟨7, 64⟩ 7 (State.new 7)
    Relation.ReflTransGen.refl rfl

end Bwlat
